import Mathlib

/-!
Shallow embedding of `src/test cases/frameworks/1 boost/python_module.cpp`.

The C++ source defines a struct `World` with a single `std::string msg`
field and three member functions, and registers the type with the host
runtime via `BOOST_PYTHON_MODULE(MOD_NAME)`:

    struct World
    {
        void set(std::string msg) { this->msg = msg; }
        std::string greet() { return msg; }
        std::string version() { return std::to_string(PY_MAJOR_VERSION)
                                     + "." + std::to_string(PY_MINOR_VERSION); }
        std::string msg;
    };

    BOOST_PYTHON_MODULE(MOD_NAME)
    {
        using namespace boost::python;
        class_<World>("World")
            .def("greet", &World::greet)
            .def("set", &World::set)
            .def("version", &World::version)
        ;
    }

Each member function is embedded in state-passing style: a function from
the receiver state (`*this` before the call) to the pair of the return
value and the receiver state after the call, translated from the body of
the member function.  `std::to_string` on the nonnegative build constants
`PY_MAJOR_VERSION` / `PY_MINOR_VERSION` is modelled by `Nat.repr`, decimal
rendering of a natural number.
-/

namespace BoostExample

/-- The build-time configuration consumed by the translation unit: the two
Python version constants (`PY_MAJOR_VERSION`, `PY_MINOR_VERSION`) and the
module name substituted for `MOD_NAME`.  These are fixed per build. -/
structure PyConfig where
  pyMajor : Nat
  pyMinor : Nat
  modName : String

/-- The holder type.  `std::string msg;` — a single owned string field;
a value-initialized `World` has an empty string, as `std::string`'s
default constructor produces the empty string. -/
structure World where
  msg : String
deriving DecidableEq, Repr

/-- A freshly constructed holder: the `msg` field is default-constructed,
hence empty. -/
def World.init : World := { msg := "" }

/-- `void set(std::string msg) { this->msg = msg; }` — returns no value
and replaces the `msg` field of the receiver. -/
def World.set (w : World) (msg : String) : Unit × World :=
  ((), { w with msg := msg })

/-- `std::string greet() { return msg; }` — returns the `msg` field; the
body performs no assignment, so the receiver state after the call is the
receiver state before it. -/
def World.greet (w : World) : String × World :=
  (w.msg, w)

/-- `std::string version() { return std::to_string(PY_MAJOR_VERSION) + "."
+ std::to_string(PY_MINOR_VERSION); }` — the body reads only the two
build constants, never the receiver's field, and performs no assignment. -/
def World.version (cfg : PyConfig) (w : World) : String × World :=
  (Nat.repr cfg.pyMajor ++ "." ++ Nat.repr cfg.pyMinor, w)

/-- The operations callable on a holder, used to describe arbitrary finite
call sequences. -/
inductive Op where
  | setOp (s : String)
  | greetOp
  | versionOp
deriving DecidableEq, Repr

/-- Run one operation on a holder, keeping the holder state it leaves
behind. -/
def stepOp (cfg : PyConfig) (w : World) : Op → World
  | Op.setOp s => (w.set s).2
  | Op.greetOp => w.greet.2
  | Op.versionOp => (w.version cfg).2

/-- Run a finite sequence of operations on a holder, left to right. -/
def runOps (cfg : PyConfig) (w : World) : List Op → World
  | [] => w
  | op :: rest => runOps cfg (stepOp cfg w op) rest

/-- The argument of the most recent `set` in the sequence, if any. -/
def lastSet : List Op → Option String
  | [] => none
  | op :: rest =>
    match lastSet rest with
    | some t => some t
    | none =>
      match op with
      | Op.setOp s => some s
      | _ => none

/-- A store of two distinct holders, as constructed independently by the
host runtime; each owns its `msg` field, with no sharing between them. -/
structure TwoHolders where
  h1 : World
  h2 : World
deriving DecidableEq, Repr

/-- Call `set` on the first holder of the store: only `h1` is the receiver;
`h2` is untouched. -/
def TwoHolders.setFst (s : TwoHolders) (t : String) : TwoHolders :=
  { s with h1 := (s.h1.set t).2 }

/-- The three method tags bound in the registration table, one per member
function of `World`. -/
inductive WorldMethod where
  | greetM
  | setM
  | versionM
deriving DecidableEq, Repr

/-- What a bound method tag denotes: applied to the build configuration,
the receiver, and the optional string argument, it yields `none` on an
arity mismatch and otherwise the optional string result paired with the
receiver state after the call. -/
def WorldMethod.denote (cfg : PyConfig) :
    WorldMethod → World → Option String → Option (Option String × World)
  | WorldMethod.greetM, w, none => some (some w.greet.1, w.greet.2)
  | WorldMethod.greetM, _, some _ => none
  | WorldMethod.setM, w, some t => some (none, (w.set t).2)
  | WorldMethod.setM, _, none => none
  | WorldMethod.versionM, w, none =>
      some (some (w.version cfg).1, (w.version cfg).2)
  | WorldMethod.versionM, _, some _ => none

/-- One `.def(name, method)` entry of the registration table. -/
structure MethodDef where
  name : String
  method : WorldMethod
deriving DecidableEq, Repr

/-- One `class_<World>(name)` declaration with its method table. -/
structure ClassDef where
  className : String
  methods : List MethodDef
deriving DecidableEq, Repr

/-- A module declaration: the module name and the classes it exposes. -/
structure ModuleDef where
  moduleName : String
  classes : List ClassDef
deriving DecidableEq, Repr

/-- `BOOST_PYTHON_MODULE(MOD_NAME) { class_<World>("World").def("greet",
&World::greet).def("set", &World::set).def("version", &World::version); }`
— the registration surface, as a function of the build-time module name. -/
def pythonModule (cfg : PyConfig) : ModuleDef :=
  { moduleName := cfg.modName
    classes :=
      [ { className := "World"
          methods :=
            [ { name := "greet", method := WorldMethod.greetM }
            , { name := "set", method := WorldMethod.setM }
            , { name := "version", method := WorldMethod.versionM } ] } ] }

/-- The pattern check for `^\d+\.\d+$`: one or more ASCII digits, a single
dot, one or more ASCII digits, and nothing else. -/
def matchesMajorMinor (s : String) : Bool :=
  match s.toList.dropWhile Char.isDigit with
  | '.' :: r2 =>
    decide (s.toList.takeWhile Char.isDigit ≠ []) &&
    decide (r2.takeWhile Char.isDigit ≠ []) &&
    decide (r2.dropWhile Char.isDigit = [])
  | _ => false

/-! ### Helper lemmas: decimal rendering produces nonempty digit strings -/

lemma digitChar_isDigit (n : Nat) (h : n < 10) : (Nat.digitChar n).isDigit = true := by
  interval_cases n <;> decide

lemma toDigitsCore_all_digits (fuel : Nat) :
    ∀ (n : Nat) (ds : List Char), (∀ c ∈ ds, c.isDigit = true) →
      ∀ c ∈ Nat.toDigitsCore 10 fuel n ds, c.isDigit = true := by
  induction fuel with
  | zero => intro n ds hds c hc; exact hds c hc
  | succ fuel ih =>
    intro n ds hds c hc
    simp only [Nat.toDigitsCore] at hc
    by_cases h10 : n / 10 = 0
    · simp only [h10, if_pos rfl] at hc
      rcases List.mem_cons.mp hc with h | h
      · exact h ▸ digitChar_isDigit _ (Nat.mod_lt _ (by omega))
      · exact hds c h
    · rw [if_neg h10] at hc
      refine ih (n / 10) (Nat.digitChar (n % 10) :: ds) ?_ c hc
      intro c' hc'
      rcases List.mem_cons.mp hc' with h | h
      · exact h ▸ digitChar_isDigit _ (Nat.mod_lt _ (by omega))
      · exact hds c' h

lemma toDigitsCore_ne_nil (fuel : Nat) :
    ∀ (n : Nat) (ds : List Char), fuel ≠ 0 ∨ ds ≠ [] →
      Nat.toDigitsCore 10 fuel n ds ≠ [] := by
  induction fuel with
  | zero =>
    intro n ds h
    rcases h with h | h
    · exact absurd rfl h
    · simpa [Nat.toDigitsCore] using h
  | succ fuel ih =>
    intro n ds _
    simp only [Nat.toDigitsCore]
    by_cases h10 : n / 10 = 0
    · simp [h10]
    · rw [if_neg h10]
      exact ih (n / 10) (Nat.digitChar (n % 10) :: ds) (Or.inr (by simp))

lemma repr_toList (n : Nat) : (Nat.repr n).toList = Nat.toDigits 10 n := rfl

lemma repr_all_digits (n : Nat) :
    ∀ c ∈ (Nat.repr n).toList, c.isDigit = true := by
  rw [repr_toList]
  exact toDigitsCore_all_digits (n + 1) n [] (by simp)

lemma repr_toList_ne_nil (n : Nat) : (Nat.repr n).toList ≠ [] := by
  rw [repr_toList]
  exact toDigitsCore_ne_nil (n + 1) n [] (Or.inl (by omega))

lemma takeWhile_append_of_all {p : Char → Bool} {A : List Char}
    (hA : ∀ c ∈ A, p c = true) (l : List Char) :
    (A ++ l).takeWhile p = A ++ l.takeWhile p := by
  induction A with
  | nil => simp
  | cons a A ih =>
    have ha : p a = true := hA a (List.mem_cons_self a A)
    simp only [List.cons_append, List.takeWhile_cons, ha, if_pos rfl]
    simp [ih fun c hc => hA c (List.mem_cons_of_mem a hc)]

lemma dropWhile_append_of_all {p : Char → Bool} {A : List Char}
    (hA : ∀ c ∈ A, p c = true) (l : List Char) :
    (A ++ l).dropWhile p = l.dropWhile p := by
  induction A with
  | nil => simp
  | cons a A ih =>
    have ha : p a = true := hA a (List.mem_cons_self a A)
    simp only [List.cons_append, List.dropWhile_cons, ha, if_pos rfl]
    exact ih fun c hc => hA c (List.mem_cons_of_mem a hc)

lemma versionString_toList (M m : Nat) :
    (Nat.repr M ++ "." ++ Nat.repr m).toList =
      (Nat.repr M).toList ++ '.' :: (Nat.repr m).toList := by
  simp [String.toList, String.data_append]

lemma matchesMajorMinor_repr (M m : Nat) :
    matchesMajorMinor (Nat.repr M ++ "." ++ Nat.repr m) = true := by
  have hDropA : ((Nat.repr M ++ "." ++ Nat.repr m).toList).dropWhile Char.isDigit =
      '.' :: (Nat.repr m).toList := by
    rw [versionString_toList, dropWhile_append_of_all (repr_all_digits M)]
    simp [List.dropWhile_cons]
  have hTakeA : ((Nat.repr M ++ "." ++ Nat.repr m).toList).takeWhile Char.isDigit =
      (Nat.repr M).toList := by
    rw [versionString_toList, takeWhile_append_of_all (repr_all_digits M)]
    simp [List.takeWhile_cons]
  have hTake2 : ((Nat.repr m).toList).takeWhile Char.isDigit =
      (Nat.repr m).toList := List.takeWhile_eq_self_iff.mpr (repr_all_digits m)
  have hDrop2 : ((Nat.repr m).toList).dropWhile Char.isDigit = [] :=
    List.dropWhile_eq_nil_iff.mpr fun c hc => by simp [repr_all_digits m c hc]
  unfold matchesMajorMinor
  rw [hDropA]
  show (decide ((Nat.repr M ++ "." ++ Nat.repr m).toList.takeWhile Char.isDigit ≠ []) &&
      decide (((Nat.repr m).toList).takeWhile Char.isDigit ≠ []) &&
      decide (((Nat.repr m).toList).dropWhile Char.isDigit = [])) = true
  rw [hTakeA, hTake2, hDrop2]
  simp only [decide_eq_true_eq, Bool.and_eq_true, ne_eq]
  exact ⟨⟨repr_toList_ne_nil M, repr_toList_ne_nil m⟩, trivial⟩

/-! ### Auxiliary lemma for the state invariant -/

lemma runOps_msg (cfg : PyConfig) (ops : List Op) :
    ∀ w : World, (runOps cfg w ops).msg = (lastSet ops).getD w.msg := by
  induction ops with
  | nil => intro w; rfl
  | cons op rest ih =>
    intro w
    show (runOps cfg (stepOp cfg w op) rest).msg = (lastSet (op :: rest)).getD w.msg
    rw [ih]
    cases hrest : lastSet rest with
    | some t => cases op <;> simp [lastSet, hrest]
    | none => cases op <;> simp [lastSet, hrest, stepOp, World.set, World.greet,
        World.version]

/-! ### Claim theorems -/

/-- C1: for every text value `t` and every prior holder state, `set(t)`
followed by `greet()` returns exactly `t`; in particular after `set("a")`
then `set("b")`, `greet()` returns `"b"` (the last write wins). -/
theorem C1_set_then_greet (w : World) (t : String) :
    ((w.set t).2.greet).1 = t ∧
      ((((World.init.set "a").2).set "b").2.greet).1 = "b" :=
  ⟨rfl, rfl⟩

/-- C2: `greet()` on a freshly constructed holder, before any `set`,
returns the empty text value. -/
theorem C2_greet_fresh : World.init.greet.1 = "" := rfl

/-- C3: for a fixed build configuration, `version()` returns the constant
string `"<major>.<minor>"` formed from the two build-time version
constants; the result is identical across holder instances (hence across
repeated calls), is independent of the holder's text state, and matches
the pattern `^\d+\.\d+$`. -/
theorem C3_version_constant_and_pattern (cfg : PyConfig) (w w' : World) :
    (w.version cfg).1 = (w'.version cfg).1 ∧
      (w.version cfg).1 = Nat.repr cfg.pyMajor ++ "." ++ Nat.repr cfg.pyMinor ∧
      matchesMajorMinor (w.version cfg).1 = true :=
  ⟨rfl, rfl, matchesMajorMinor_repr cfg.pyMajor cfg.pyMinor⟩

/-- C4: `greet()` is read-only: for every holder state it leaves the
holder (and thus the `msg` field) unchanged and returns the current
internal text. -/
theorem C4_greet_readonly (w : World) :
    w.greet.2 = w ∧ w.greet.1 = w.msg :=
  ⟨rfl, rfl⟩

/-- C5: `set(message)` is total over all text inputs: it accepts any text
value (the embedding is a total function), replaces the internal text with
the given value, and the resulting state is exactly the holder whose `msg`
field is the argument — no other effect, no error branch. -/
theorem C5_set_total (w : World) (t : String) :
    w.set t = ((), { msg := t }) :=
  rfl

/-- C6: holder instances are isolated: calling `set` on the first holder
of a two-holder store leaves the second holder unchanged; in particular
after constructing `h1` and `h2` and calling `h1.set("x")`, `h2.greet()`
returns the empty string. -/
theorem C6_holders_isolated (s : TwoHolders) (t : String) :
    (s.setFst t).h2 = s.h2 ∧
      ((TwoHolders.mk World.init World.init).setFst "x").h2.greet.1 = "" :=
  ⟨rfl, rfl⟩

/-- C7: state invariant: after any finite sequence of `set`, `greet` and
`version` operations on a freshly constructed holder, the holder's text
field equals the argument of the most recent `set` in the sequence, or the
empty value if `set` never occurred. -/
theorem C7_state_invariant (cfg : PyConfig) (ops : List Op) :
    (runOps cfg World.init ops).msg = (lastSet ops).getD "" :=
  runOps_msg cfg ops World.init

/-- C8: the registration surface declares, under the build-time module
name, exactly one exposed type externally named `"World"`, whose
name-keyed operation table binds exactly the three names `"greet"`,
`"set"` and `"version"` to the holder's `greet`, `set` and `version`
methods respectively, and nothing else. -/
theorem C8_registration (cfg : PyConfig) :
    (pythonModule cfg).moduleName = cfg.modName ∧
      (pythonModule cfg).classes =
        [ ClassDef.mk "World"
            [ MethodDef.mk "greet" WorldMethod.greetM
            , MethodDef.mk "set" WorldMethod.setM
            , MethodDef.mk "version" WorldMethod.versionM ] ] ∧
      (∀ w : World,
        WorldMethod.denote cfg WorldMethod.greetM w none =
          some (some w.greet.1, w.greet.2)) ∧
      (∀ (w : World) (t : String),
        WorldMethod.denote cfg WorldMethod.setM w (some t) =
          some (none, (w.set t).2)) ∧
      (∀ w : World,
        WorldMethod.denote cfg WorldMethod.versionM w none =
          some (some (w.version cfg).1, (w.version cfg).2)) :=
  ⟨rfl, rfl, fun _ => rfl, fun _ _ => rfl, fun _ => rfl⟩

/-- C9: for every holder state, `set(greet())` leaves the holder's state
unchanged (`set` is a left inverse of `greet`). -/
theorem C9_set_greet_id (w : World) :
    (w.set w.greet.1).2 = w :=
  rfl

/-- C10: `version()` never reads or writes the holder's text field: for
every holder state it leaves the holder unchanged, and its return value is
the same for every holder state. -/
theorem C10_version_frame (cfg : PyConfig) (w w' : World) :
    (w.version cfg).2 = w ∧ (w.version cfg).1 = (w'.version cfg).1 :=
  ⟨rfl, rfl⟩

end BoostExample
